import Mathlib

/-!
Verification development for the SimTK Simbody `BicubicSurface` /
`BicubicFunction` header and `ContactImpl.h`.

The repository excerpt contains the `BicubicSurface.h` header (class
declarations, the inline `BicubicFunction` methods) and `ContactImpl.h`
(with the inline `createNewContactId` generator).  The numeric guts of
`BicubicSurface` (patch location, Hermite coefficient computation, the
patch-hint cache tiers and statistics) are declared but implemented
elsewhere; those parts are modelled from the specification, as marked on
each definition.  Reals are modelled as exact rationals `ℚ`, so the
"within floating-point tolerance" clauses become exact equalities.
-/

namespace Simbody

/-- Element access into an axis vector with default 0 (models `Vector[i]`). -/
def getA (l : List ℚ) (i : Nat) : ℚ := l.getD i 0

/-- Element access into a matrix stored as a list of rows, default 0
(models `Matrix(i,j)`). -/
def getM (m : List (List ℚ)) (i j : Nat) : ℚ := (m.getD i []).getD j 0

/-- Modelled from the spec: error kinds reported by the surface core
(`InvalidGridError` at construction, `OutOfRangeError` at query time) and
the argument-size check of `BicubicFunction` (`SimTK_ERRCHK1` failure). -/
inductive SimErr where
  | OutOfRangeError
  | InvalidGridError
  | SizeError
deriving DecidableEq, Repr

/-- Modelled from the spec: the immutable grid data of a surface —
strictly increasing axes, the value matrix `f` and the node partial
derivative matrices `fx`, `fy`, `fxy`; `regular` records origin and
spacing when the surface was built on a regular grid so that the patch
locator can use direct division instead of a search. -/
structure Surface where
  xAxis : List ℚ
  yAxis : List ℚ
  f   : List (List ℚ)
  fx  : List (List ℚ)
  fy  : List (List ℚ)
  fxy : List (List ℚ)
  regular : Option (ℚ × ℚ × ℚ × ℚ)
deriving DecidableEq, Repr

/-- Modelled from the spec: the external 1-D smoothing-spline collaborator
(`SplineFitter`), treated as a black box.  `dfx`, `dfy`, `dfxy` synthesize
the node partial-derivative matrices from axes, values and smoothness;
`smooth` produces the relaxed value matrix used when smoothness is
nonzero. -/
structure DerivSynth where
  dfx    : List ℚ → List ℚ → List (List ℚ) → ℚ → List (List ℚ)
  dfy    : List ℚ → List ℚ → List (List ℚ) → ℚ → List (List ℚ)
  dfxy   : List ℚ → List ℚ → List (List ℚ) → ℚ → List (List ℚ)
  smooth : List ℚ → List ℚ → List (List ℚ) → ℚ → List (List ℚ)

/-- Axis vectors must be strictly increasing (no duplicates). -/
def strictlyInc (xs : List ℚ) : Bool := decide (List.Chain' (· < ·) xs)

/-- A value matrix is rectangular with every row of length `m`. -/
def isRect (F : List (List ℚ)) (m : Nat) : Bool :=
  F.all (fun r => r.length == m)

/-- Modelled from the spec: grid validity — both axes at least 4 samples
and strictly increasing, and the value matrix shaped `|x| × |y|`. -/
def validGrid (xs ys : List ℚ) (F : List (List ℚ)) : Bool :=
  decide (4 ≤ xs.length) && decide (4 ≤ ys.length) &&
  strictlyInc xs && strictlyInc ys &&
  (F.length == xs.length) && isRect F ys.length

/-- Modelled from the spec: `BicubicSurface(x,y,f,smoothness)` — validate
the grid, then store `f` (smoothness 0 keeps the samples exactly; a
nonzero smoothness relaxes them through the spline collaborator) together
with the synthesized derivative matrices.  Invalid input raises
`InvalidGridError`. -/
def construct (ds : DerivSynth) (xs ys : List ℚ) (F : List (List ℚ))
    (sm : ℚ) : Except SimErr Surface :=
  if validGrid xs ys F then
    Except.ok
      { xAxis := xs, yAxis := ys
        f := if sm = 0 then F else ds.smooth xs ys F sm
        fx := ds.dfx xs ys F sm
        fy := ds.dfy xs ys F sm
        fxy := ds.dfxy xs ys F sm
        regular := none }
  else Except.error SimErr.InvalidGridError

/-- The expanded axis sequence of a regular grid: `x0 + i*dx` for
`i = 0, …, n-1`. -/
def axisOf (x0 dx : ℚ) : Nat → List ℚ
  | 0 => []
  | n + 1 => x0 :: axisOf (x0 + dx) dx n

/-- Modelled from the spec: `BicubicSurface(XY, spacing, f, smoothness)` —
the regular-grid constructor expands origin and spacing to the same
axis-sequence representation, requiring positive spacing, but keeps the
origin/spacing pair so the locator can use direct division. -/
def constructRegular (ds : DerivSynth) (x0 y0 dx dy : ℚ)
    (F : List (List ℚ)) (sm : ℚ) : Except SimErr Surface :=
  if 0 < dx ∧ 0 < dy then
    match construct ds (axisOf x0 dx F.length)
        (axisOf y0 dy (F.headD []).length) F sm with
    | Except.ok s => Except.ok { s with regular := some (x0, dx, y0, dy) }
    | Except.error e => Except.error e
  else Except.error SimErr.InvalidGridError

/-- Evaluate a univariate polynomial given by its coefficient list
(`[c0, c1, c2, c3]` is `c0 + c1 t + c2 t² + c3 t³`). -/
def polyEval (cs : List ℚ) (t : ℚ) : ℚ :=
  cs.foldr (fun c acc => c + t * acc) 0

/-- Helper for `polyDeriv`: multiplies each coefficient by its power. -/
def polyDerivAux : Nat → List ℚ → List ℚ
  | _, [] => []
  | k, c :: rest => (k : ℚ) * c :: polyDerivAux (k + 1) rest

/-- Formal derivative of a coefficient list. -/
def polyDeriv (cs : List ℚ) : List ℚ := polyDerivAux 1 (cs.drop 1)

/-- `n`-th formal derivative. -/
def polyDerivN (n : Nat) (cs : List ℚ) : List ℚ := polyDeriv^[n] cs

/-- Hermite basis cubic with value 1 at 0: `2t³ − 3t² + 1`. -/
def h00 : List ℚ := [1, 0, -3, 2]
/-- Hermite basis cubic with slope 1 at 0: `t³ − 2t² + t`. -/
def h10 : List ℚ := [0, 1, -2, 1]
/-- Hermite basis cubic with value 1 at 1: `−2t³ + 3t²`. -/
def h01 : List ℚ := [0, 0, 3, -2]
/-- Hermite basis cubic with slope 1 at 1: `t³ − t²`. -/
def h11 : List ℚ := [0, 0, -1, 1]

/-- The `c`-th derivative of a Hermite basis cubic, evaluated at `t`. -/
def hB (p : List ℚ) (c : Nat) (t : ℚ) : ℚ := polyEval (polyDerivN c p) t

/-- Modelled from the spec: the Hermite bicubic patch polynomial in
normalized local coordinates `u, v ∈ [0,1]`, determined directly by the
16 corner scalars (values and partials of the four cell corners, with
`fab` meaning the corner at x-side `a`, y-side `b`), differentiated `cx`
times in `u` and `cy` times in `v`.  Corner derivative data is scaled by
the cell widths `dx`, `dy` to local coordinates. -/
def patchAt (f00 f10 f01 f11 fx00 fx10 fx01 fx11
    fy00 fy10 fy01 fy11 fxy00 fxy10 fxy01 fxy11 dx dy : ℚ)
    (cx cy : Nat) (u v : ℚ) : ℚ :=
    f00  * hB h00 cx u * hB h00 cy v
  + f10  * hB h01 cx u * hB h00 cy v
  + f01  * hB h00 cx u * hB h01 cy v
  + f11  * hB h01 cx u * hB h01 cy v
  + dx * ( fx00 * hB h10 cx u * hB h00 cy v
         + fx10 * hB h11 cx u * hB h00 cy v
         + fx01 * hB h10 cx u * hB h01 cy v
         + fx11 * hB h11 cx u * hB h01 cy v )
  + dy * ( fy00 * hB h00 cx u * hB h10 cy v
         + fy10 * hB h01 cx u * hB h10 cy v
         + fy01 * hB h00 cx u * hB h11 cy v
         + fy11 * hB h01 cx u * hB h11 cy v )
  + dx * dy * ( fxy00 * hB h10 cx u * hB h10 cy v
              + fxy10 * hB h11 cx u * hB h10 cy v
              + fxy01 * hB h10 cx u * hB h11 cy v
              + fxy11 * hB h11 cx u * hB h11 cy v )

/-- Modelled from the spec: the full patch-derivative evaluation for cell
`(i,j)` — dispatches the mixed-beyond-(1,1) rule, computes the local
coordinates and applies the chain-rule scale factors. -/
def patchEvalD (s : Surface) (i j cx cy : Nat) (X Y : ℚ) : ℚ :=
  if 1 ≤ cx ∧ 1 ≤ cy ∧ 3 ≤ cx + cy then 0 else
  let x0 := getA s.xAxis i
  let y0 := getA s.yAxis j
  let dx := getA s.xAxis (i + 1) - x0
  let dy := getA s.yAxis (j + 1) - y0
  (1 / dx) ^ cx * (1 / dy) ^ cy *
    patchAt (getM s.f i j) (getM s.f (i+1) j)
      (getM s.f i (j+1)) (getM s.f (i+1) (j+1))
      (getM s.fx i j) (getM s.fx (i+1) j)
      (getM s.fx i (j+1)) (getM s.fx (i+1) (j+1))
      (getM s.fy i j) (getM s.fy (i+1) j)
      (getM s.fy i (j+1)) (getM s.fy (i+1) (j+1))
      (getM s.fxy i j) (getM s.fxy (i+1) j)
      (getM s.fxy i (j+1)) (getM s.fxy (i+1) (j+1))
      dx dy cx cy ((X - x0) / dx) ((Y - y0) / dy)

/-- Modelled from the spec: bracketing-interval search along one axis —
the cell index `k` with `axis[k] ≤ X ≤ axis[k+1]` for in-domain `X`,
clamped to the last cell (`length − 2`); computes the same index the
binary search of the implementation finds. -/
def searchLo : List ℚ → ℚ → Nat
  | _ :: b :: c :: rest, X =>
      if X < b then 0 else searchLo (b :: c :: rest) X + 1
  | _, _ => 0

/-- Modelled from the spec: the patch locator — binary-search bracketing
for irregular axes, clamped `floor((X−origin)/spacing)` arithmetic for
regular axes. -/
def locateCell (s : Surface) (X Y : ℚ) : Nat × Nat :=
  match s.regular with
  | some (x0, dx, y0, dy) =>
      (min (s.xAxis.length - 2) (Int.toNat ⌊(X - x0) / dx⌋),
       min (s.yAxis.length - 2) (Int.toNat ⌊(Y - y0) / dy⌋))
  | none => (searchLo s.xAxis X, searchLo s.yAxis Y)

/-- Modelled from the spec: the contents of a populated `PatchHint` — the
cached cell, the last query point, the request kind that produced the
cached scalar (`[]` for a value request, the derivative components
otherwise), and the cached result. -/
structure HintData where
  cell : Nat × Nat
  lastPoint : ℚ × ℚ
  lastRequest : List Nat
  lastResult : ℚ
deriving DecidableEq, Repr

/-- Modelled from the spec: a `PatchHint` is empty (`none`) or populated. -/
def emptyHint : Option HintData := none

/-- `PatchHint::isEmpty`. -/
def hintIsEmpty (h : Option HintData) : Bool := h.isNone

/-- `PatchHint::clear` — erase any stored information. -/
def clearHint (_h : Option HintData) : Option HintData := none

/-- `PatchHint` copy construction / assignment — a deep copy of the cached
state, so an empty source yields an empty copy. -/
def copyHint (h : Option HintData) : Option HintData := h

/-- Modelled from the spec: the four access-statistics counters kept on
the surface. -/
structure Stats where
  total : Nat
  samePoint : Nat
  samePatch : Nat
  nearby : Nat
deriving DecidableEq, Repr

/-- `BicubicSurface::resetStatistics` — reset all counters to zero. -/
def resetStatistics (_st : Stats) : Stats := ⟨0, 0, 0, 0⟩

/-- Pointwise order on the statistics counters. -/
def statsLE (a b : Stats) : Prop :=
  a.total ≤ b.total ∧ a.samePoint ≤ b.samePoint ∧
  a.samePatch ≤ b.samePatch ∧ a.nearby ≤ b.nearby

/-- Domain membership: `X` and `Y` within the closed interval of the
first and last axis samples. -/
def inDomain (s : Surface) (X Y : ℚ) : Bool :=
  decide (getA s.xAxis 0 ≤ X) &&
  decide (X ≤ getA s.xAxis (s.xAxis.length - 1)) &&
  decide (getA s.yAxis 0 ≤ Y) &&
  decide (Y ≤ getA s.yAxis (s.yAxis.length - 1))

/-- `BicubicSurface::isSurfaceDefined` — pure domain-membership test. -/
def isSurfaceDefined (s : Surface) (X Y : ℚ) : Bool := inDomain s X Y

/-- Whether cell `(c.1, c.2)` (closed bounds) contains the point. -/
def cellContains (s : Surface) (c : Nat × Nat) (X Y : ℚ) : Bool :=
  decide (getA s.xAxis c.1 ≤ X) && decide (X ≤ getA s.xAxis (c.1 + 1)) &&
  decide (getA s.yAxis c.2 ≤ Y) && decide (Y ≤ getA s.yAxis (c.2 + 1))

/-- Whether two cell indices differ by at most one along each axis. -/
def isAdjacent (a b : Nat × Nat) : Bool :=
  decide (a.1 ≤ b.1 + 1) && decide (b.1 ≤ a.1 + 1) &&
  decide (a.2 ≤ b.2 + 1) && decide (b.2 ≤ a.2 + 1)

/-- Evaluate a request (`[]` = value, otherwise derivative components,
0 = X, 1 = Y) on the patch of a given cell. -/
def evalInCell (s : Surface) (c : Nat × Nat) (req : List Nat)
    (X Y : ℚ) : ℚ :=
  patchEvalD s c.1 c.2 (req.count 0) (req.count 1) X Y

/-- Modelled from the spec: the shared core of `calcValue` and
`calcDerivative` — domain check first (out-of-range reports
`OutOfRangeError` and leaves hint and statistics untouched), then the
cache tiers: same point and same request kind (cached scalar returned,
same-point counter), point still in the hint's cell (same-patch counter),
point in a cell adjacent to the hint's cell (nearby-patch counter), or a
cold search (no tier counter); the total counter always increments, and
every successful call refreshes the hint. -/
def access (s : Surface) (req : List Nat) (X Y : ℚ)
    (h : Option HintData) (st : Stats) :
    Except SimErr ℚ × Option HintData × Stats :=
  if inDomain s X Y then
    match h with
    | some hd =>
      if hd.lastPoint = (X, Y) ∧ hd.lastRequest = req then
        (Except.ok hd.lastResult, some hd,
         { st with total := st.total + 1, samePoint := st.samePoint + 1 })
      else if cellContains s hd.cell X Y then
        let r := evalInCell s hd.cell req X Y
        (Except.ok r,
         some { cell := hd.cell, lastPoint := (X, Y),
                lastRequest := req, lastResult := r },
         { st with total := st.total + 1, samePatch := st.samePatch + 1 })
      else
        let c := locateCell s X Y
        let r := evalInCell s c req X Y
        let nh : Option HintData :=
          some { cell := c, lastPoint := (X, Y),
                 lastRequest := req, lastResult := r }
        if isAdjacent hd.cell c then
          (Except.ok r, nh,
           { st with total := st.total + 1, nearby := st.nearby + 1 })
        else
          (Except.ok r, nh, { st with total := st.total + 1 })
    | none =>
        let c := locateCell s X Y
        let r := evalInCell s c req X Y
        (Except.ok r,
         some { cell := c, lastPoint := (X, Y),
                lastRequest := req, lastResult := r },
         { st with total := st.total + 1 })
  else
    (Except.error SimErr.OutOfRangeError, h, st)

/-- `BicubicSurface::calcValue(XY, hint)`. -/
def calcValue (s : Surface) (X Y : ℚ) (h : Option HintData) (st : Stats) :
    Except SimErr ℚ × Option HintData × Stats :=
  access s [] X Y h st

/-- `BicubicSurface::calcDerivative(derivComponents, XY, hint)`. -/
def calcDerivative (s : Surface) (dc : List Nat) (X Y : ℚ)
    (h : Option HintData) (st : Stats) :
    Except SimErr ℚ × Option HintData × Stats :=
  access s dc X Y h st

/-- The invariant maintained for every hint the evaluator hands out: a
populated hint caches a genuine cell of the surface, its last point lies
in that cell, and the cached scalar is exactly the evaluation of the
cached request at the cached point on that cell's patch. -/
def HintWF (s : Surface) (h : Option HintData) : Prop :=
  ∀ hd, h = some hd →
    hd.cell.1 + 1 < s.xAxis.length ∧ hd.cell.2 + 1 < s.yAxis.length ∧
    cellContains s hd.cell hd.lastPoint.1 hd.lastPoint.2 = true ∧
    hd.lastResult =
      evalInCell s hd.cell hd.lastRequest hd.lastPoint.1 hd.lastPoint.2

/-- `BicubicFunction` — the lightweight `Function_<Real>` wrapper holding
a shared surface and its private mutable `PatchHint`. -/
structure BicubicFunction where
  surface : Surface
  hint : Option HintData

/-- `BicubicFunction::calcValue(XY)`: checks that the argument vector has
exactly 2 elements (`SimTK_ERRCHK1`) before forwarding
`Vec2(XY[0], XY[1])` to the surface with the member hint; statistics live
on the shared surface and are threaded explicitly. -/
def BicubicFunction.calcValue (fn : BicubicFunction) (st : Stats)
    (XY : List ℚ) : Except SimErr ℚ × Option HintData × Stats :=
  if XY.length = 2 then
    access fn.surface [] (XY.getD 0 0) (XY.getD 1 0) fn.hint st
  else (Except.error SimErr.SizeError, fn.hint, st)

/-- `BicubicFunction::calcDerivative(derivComponents, XY)`: same 2-element
argument check before forwarding to the surface. -/
def BicubicFunction.calcDerivative (fn : BicubicFunction) (st : Stats)
    (dc : List Nat) (XY : List ℚ) :
    Except SimErr ℚ × Option HintData × Stats :=
  if XY.length = 2 then
    access fn.surface dc (XY.getD 0 0) (XY.getD 1 0) fn.hint st
  else (Except.error SimErr.SizeError, fn.hint, st)

/-- `BicubicFunction::getArgumentSize()` — always 2. -/
def BicubicFunction.getArgumentSize (_fn : BicubicFunction) : Nat := 2

/-- `MaxContactId` from `ContactImpl::createNewContactId` (1 billion−1). -/
def MaxContactId : Nat := 999999999

/-- `ContactImpl::createNewContactId`, single-threaded: given the current
value of the static `nextAvailableId` counter, returns the issued id and
the counter's value after the call (`id = nextAvailableId++`, then reset
to 1 when the issued id was `MaxContactId`). -/
def createNewContactId (next : Nat) : Nat × Nat :=
  let id := next
  (id, if id = MaxContactId then 1 else next + 1)

/-- Counter states reachable in a single-threaded execution: the static
initializer sets 1, and each call steps the counter. -/
inductive ReachableCounter : Nat → Prop where
  | init : ReachableCounter 1
  | step : ∀ {n : Nat}, ReachableCounter n →
      ReachableCounter (createNewContactId n).2

/-- Concrete black-box spline collaborator used for concrete evaluations:
synthesizes empty derivative matrices (they default to 0 on access). -/
def zeroSynth : DerivSynth :=
  ⟨fun _ _ _ _ => [], fun _ _ _ _ => [], fun _ _ _ _ => [],
   fun _ _ F _ => F⟩

/-- Concrete test axis `[0, 1, 2, 3]`. -/
def xs4 : List ℚ := [0, 1, 2, 3]

/-- Concrete test value matrix `f[i][j] = i² + j²`. -/
def F4 : List (List ℚ) :=
  [[0, 1, 4, 9], [1, 2, 5, 10], [4, 5, 8, 13], [9, 10, 13, 18]]

/-- The surface `construct zeroSynth xs4 xs4 F4 0` builds. -/
def sW : Surface := ⟨xs4, xs4, F4, [], [], [], none⟩

/-- The surface the regular-grid constructor builds for origin 0 and
spacing 1 on `F4`. -/
def sWreg : Surface :=
  ⟨axisOf 0 1 4, axisOf 0 1 4, F4, [], [], [], some (0, 1, 0, 1)⟩

/-- The surface the explicit-axis constructor builds on the expanded
regular axes of `sWreg`. -/
def sWirr : Surface := ⟨axisOf 0 1 4, axisOf 0 1 4, F4, [], [], [], none⟩

/-- All-zero statistics state. -/
def st0 : Stats := ⟨0, 0, 0, 0⟩

/-- A concrete `BicubicFunction` over `sW` with a fresh hint. -/
def fnW : BicubicFunction := ⟨sW, none⟩

theorem polyDerivAux_length (k : Nat) (cs : List ℚ) :
    (polyDerivAux k cs).length = cs.length := by
  induction cs generalizing k with
  | nil => rfl
  | cons c rest ih => simp [polyDerivAux, ih]

theorem polyDeriv_length (cs : List ℚ) :
    (polyDeriv cs).length = cs.length - 1 := by
  simp [polyDeriv, polyDerivAux_length]

theorem polyDerivN_nil {n : Nat} {cs : List ℚ} (h : cs.length ≤ n) :
    polyDerivN n cs = [] := by
  induction n generalizing cs with
  | zero =>
      have : cs = [] := List.eq_nil_of_length_eq_zero (by omega)
      simpa [polyDerivN] using this
  | succ n ih =>
      rw [polyDerivN, Function.iterate_succ_apply]
      exact ih (by rw [polyDeriv_length]; omega)

theorem polyEval_nil (t : ℚ) : polyEval [] t = 0 := rfl

theorem hB_high {p : List ℚ} (hp : p.length ≤ 4) {c : Nat} (hc : 4 ≤ c)
    (t : ℚ) : hB p c t = 0 := by
  rw [hB, polyDerivN_nil (le_trans hp hc), polyEval_nil]

theorem hB_zero_eval (p : List ℚ) (t : ℚ) : hB p 0 t = polyEval p t := rfl

@[simp] theorem polyEval_h00_zero : polyEval h00 0 = 1 := by
  norm_num [polyEval, h00]

@[simp] theorem polyEval_h00_one : polyEval h00 1 = 0 := by
  norm_num [polyEval, h00]

@[simp] theorem polyEval_h01_zero : polyEval h01 0 = 0 := by
  norm_num [polyEval, h01]

@[simp] theorem polyEval_h01_one : polyEval h01 1 = 1 := by
  norm_num [polyEval, h01]

@[simp] theorem polyEval_h10_zero : polyEval h10 0 = 0 := by
  norm_num [polyEval, h10]

@[simp] theorem polyEval_h10_one : polyEval h10 1 = 0 := by
  norm_num [polyEval, h10]

@[simp] theorem polyEval_h11_zero : polyEval h11 0 = 0 := by
  norm_num [polyEval, h11]

@[simp] theorem polyEval_h11_one : polyEval h11 1 = 0 := by
  norm_num [polyEval, h11]

theorem patchAt_corner_00 (f00 f10 f01 f11 fx00 fx10 fx01 fx11
    fy00 fy10 fy01 fy11 fxy00 fxy10 fxy01 fxy11 dx dy : ℚ) :
    patchAt f00 f10 f01 f11 fx00 fx10 fx01 fx11 fy00 fy10 fy01 fy11
      fxy00 fxy10 fxy01 fxy11 dx dy 0 0 0 0 = f00 := by
  simp [patchAt, hB_zero_eval]

theorem patchAt_corner_10 (f00 f10 f01 f11 fx00 fx10 fx01 fx11
    fy00 fy10 fy01 fy11 fxy00 fxy10 fxy01 fxy11 dx dy : ℚ) :
    patchAt f00 f10 f01 f11 fx00 fx10 fx01 fx11 fy00 fy10 fy01 fy11
      fxy00 fxy10 fxy01 fxy11 dx dy 0 0 1 0 = f10 := by
  simp [patchAt, hB_zero_eval]

theorem patchAt_corner_01 (f00 f10 f01 f11 fx00 fx10 fx01 fx11
    fy00 fy10 fy01 fy11 fxy00 fxy10 fxy01 fxy11 dx dy : ℚ) :
    patchAt f00 f10 f01 f11 fx00 fx10 fx01 fx11 fy00 fy10 fy01 fy11
      fxy00 fxy10 fxy01 fxy11 dx dy 0 0 0 1 = f01 := by
  simp [patchAt, hB_zero_eval]

theorem patchAt_corner_11 (f00 f10 f01 f11 fx00 fx10 fx01 fx11
    fy00 fy10 fy01 fy11 fxy00 fxy10 fxy01 fxy11 dx dy : ℚ) :
    patchAt f00 f10 f01 f11 fx00 fx10 fx01 fx11 fy00 fy10 fy01 fy11
      fxy00 fxy10 fxy01 fxy11 dx dy 0 0 1 1 = f11 := by
  simp [patchAt, hB_zero_eval]

theorem patchEvalD_zero (s : Surface) (i j cx cy : Nat) (X Y : ℚ)
    (H : 4 ≤ cx ∨ 4 ≤ cy ∨ (1 ≤ cx ∧ 1 ≤ cy ∧ 3 ≤ cx + cy)) :
    patchEvalD s i j cx cy X Y = 0 := by
  by_cases hm : 1 ≤ cx ∧ 1 ≤ cy ∧ 3 ≤ cx + cy
  · simp [patchEvalD, hm]
  · have hcase : (4 ≤ cx ∧ cy = 0) ∨ (cx = 0 ∧ 4 ≤ cy) := by omega
    rw [patchEvalD, if_neg hm]
    rcases hcase with ⟨h4, hc0⟩ | ⟨hc0, h4⟩
    · have e : ∀ p : List ℚ, p.length = 4 → ∀ t, hB p cx t = 0 :=
        fun p hp t => hB_high hp.le h4 t
      simp [patchAt, e h00 rfl, e h10 rfl, e h01 rfl, e h11 rfl]
    · have e : ∀ p : List ℚ, p.length = 4 → ∀ t, hB p cy t = 0 :=
        fun p hp t => hB_high hp.le h4 t
      simp [patchAt, e h00 rfl, e h10 rfl, e h01 rfl, e h11 rfl]

theorem getA_lt_getA {xs : List ℚ} (hs : strictlyInc xs = true)
    {i j : Nat} (hij : i < j) (hj : j < xs.length) :
    getA xs i < getA xs j := by
  have hp : List.Pairwise (· < ·) xs :=
    List.chain'_iff_pairwise.mp (by simpa [strictlyInc] using hs)
  have h := List.pairwise_iff_getElem.mp hp i j (by omega) hj hij
  rw [getA, getA, List.getD_eq_getElem _ _ (show i < xs.length by omega),
    List.getD_eq_getElem _ _ hj]
  exact h

theorem node_idx {xs : List ℚ} (hs : strictlyInc xs = true)
    {i c : Nat} (hi : i < xs.length) (hc : c + 1 < xs.length)
    (h1 : getA xs c ≤ getA xs i) (h2 : getA xs i ≤ getA xs (c + 1)) :
    i = c ∨ i = c + 1 := by
  have htri : i < c ∨ (c ≤ i ∧ i ≤ c + 1) ∨ c + 1 < i := by omega
  rcases htri with hlt | hmid | hgt
  · exact absurd h1 (not_le.mpr (getA_lt_getA hs hlt (by omega)))
  · omega
  · exact absurd h2 (not_le.mpr (getA_lt_getA hs hgt hi))

theorem patchEvalD_corner {s : Surface}
    (hsx : strictlyInc s.xAxis = true) (hsy : strictlyInc s.yAxis = true)
    {i j c1 c2 : Nat}
    (hi : i < s.xAxis.length) (hj : j < s.yAxis.length)
    (hc1 : c1 + 1 < s.xAxis.length) (hc2 : c2 + 1 < s.yAxis.length)
    (hx1 : getA s.xAxis c1 ≤ getA s.xAxis i)
    (hx2 : getA s.xAxis i ≤ getA s.xAxis (c1 + 1))
    (hy1 : getA s.yAxis c2 ≤ getA s.yAxis j)
    (hy2 : getA s.yAxis j ≤ getA s.yAxis (c2 + 1)) :
    patchEvalD s c1 c2 0 0 (getA s.xAxis i) (getA s.yAxis j) =
      getM s.f i j := by
  have hdx : getA s.xAxis c1 < getA s.xAxis (c1 + 1) :=
    getA_lt_getA hsx (by omega) hc1
  have hdy : getA s.yAxis c2 < getA s.yAxis (c2 + 1) :=
    getA_lt_getA hsy (by omega) hc2
  have hdx0 : getA s.xAxis (c1 + 1) - getA s.xAxis c1 ≠ 0 := by linarith
  have hdy0 : getA s.yAxis (c2 + 1) - getA s.yAxis c2 ≠ 0 := by linarith
  have hnotmix : ¬ (1 ≤ 0 ∧ 1 ≤ 0 ∧ 3 ≤ 0 + 0) := by omega
  rcases node_idx hsx hi hc1 hx1 hx2 with hix | hix <;>
    rcases node_idx hsy hj hc2 hy1 hy2 with hjy | hjy <;> subst hix hjy
  · rw [patchEvalD, if_neg hnotmix]
    simp only [sub_self, zero_div, pow_zero, one_mul]
    exact patchAt_corner_00 _ _ _ _ _ _ _ _ _ _ _ _ _ _ _ _ _ _
  · rw [patchEvalD, if_neg hnotmix]
    simp only [sub_self, zero_div, pow_zero, one_mul,
      div_self hdy0]
    exact patchAt_corner_01 _ _ _ _ _ _ _ _ _ _ _ _ _ _ _ _ _ _
  · rw [patchEvalD, if_neg hnotmix]
    simp only [sub_self, zero_div, pow_zero, one_mul,
      div_self hdx0]
    exact patchAt_corner_10 _ _ _ _ _ _ _ _ _ _ _ _ _ _ _ _ _ _
  · rw [patchEvalD, if_neg hnotmix]
    simp only [sub_self, zero_div, pow_zero, one_mul,
      div_self hdx0, div_self hdy0]
    exact patchAt_corner_11 _ _ _ _ _ _ _ _ _ _ _ _ _ _ _ _ _ _

theorem getA_cons_succ (a : ℚ) (l : List ℚ) (k : Nat) :
    getA (a :: l) (k + 1) = getA l k := by
  simp [getA]

theorem getA_cons_zero (a : ℚ) (l : List ℚ) : getA (a :: l) 0 = a := rfl

theorem searchLo_bracket : ∀ (xs : List ℚ) (X : ℚ), 2 ≤ xs.length →
    getA xs 0 ≤ X → X ≤ getA xs (xs.length - 1) →
    getA xs (searchLo xs X) ≤ X ∧ X ≤ getA xs (searchLo xs X + 1) ∧
      searchLo xs X + 1 < xs.length
  | [], _, h, _, _ => by simp at h
  | [_], _, h, _, _ => by simp at h
  | [a, b], X, _, h0, h1 => by
      refine ⟨by simpa [searchLo] using h0, ?_, by simp [searchLo]⟩
      simpa [searchLo, getA] using h1
  | a :: b :: c :: rest, X, _, h0, h1 => by
      by_cases hb : X < b
      · rw [show searchLo (a :: b :: c :: rest) X = 0 by
          simp [searchLo, hb]]
        exact ⟨h0, by simpa [getA_cons_succ, getA_cons_zero] using hb.le,
          by simp⟩
      · have ih := searchLo_bracket (b :: c :: rest) X (by simp)
          (by simpa [getA_cons_zero] using not_lt.mp hb)
          (by simpa [List.length_cons, getA_cons_succ] using h1)
        rw [show searchLo (a :: b :: c :: rest) X =
            searchLo (b :: c :: rest) X + 1 by simp [searchLo, hb]]
        refine ⟨?_, ?_, ?_⟩
        · rw [getA_cons_succ]; exact ih.1
        · rw [getA_cons_succ]; exact ih.2.1
        · have := ih.2.2
          simp only [List.length_cons] at *
          omega

theorem axisOf_length (x0 dx : ℚ) (n : Nat) :
    (axisOf x0 dx n).length = n := by
  induction n generalizing x0 with
  | zero => rfl
  | succ n ih => simp [axisOf, ih]

theorem getA_axisOf (x0 dx : ℚ) : ∀ {n k : Nat}, k < n →
    getA (axisOf x0 dx n) k = x0 + dx * k := by
  intro n
  induction n generalizing x0 with
  | zero => omega
  | succ n ih =>
      intro k hk
      cases k with
      | zero => simp [axisOf, getA_cons_zero]
      | succ k =>
          rw [axisOf, getA_cons_succ, ih (x0 + dx) (by omega)]
          push_cast
          ring

theorem strictlyInc_axisOf {dx : ℚ} (hdx : 0 < dx) :
    ∀ (n : Nat) (x0 : ℚ), strictlyInc (axisOf x0 dx n) = true := by
  intro n
  induction n with
  | zero => intro x0; rfl
  | succ n ih =>
      intro x0
      rw [strictlyInc, decide_eq_true_eq, axisOf]
      rw [List.chain'_cons']
      constructor
      · intro h hh
        cases n with
        | zero => simp [axisOf] at hh
        | succ m =>
            rw [axisOf] at hh
            simp only [List.head?_cons, Option.mem_def, Option.some.injEq]
              at hh
            subst hh
            linarith
      · have := ih (x0 + dx)
        rwa [strictlyInc, decide_eq_true_eq] at this

theorem searchLo_axisOf {dx : ℚ} (hdx : 0 < dx) :
    ∀ {n : Nat}, 2 ≤ n → ∀ (x0 X : ℚ),
    searchLo (axisOf x0 dx n) X =
      min (n - 2) (Int.toNat ⌊(X - x0) / dx⌋) := by
  intro n hn
  induction n, hn using Nat.le_induction with
  | base =>
      intro x0 X
      simp [axisOf, searchLo]
  | succ n hn ih =>
      intro x0 X
      obtain ⟨m, rfl⟩ : ∃ m, n = m + 1 := ⟨n - 1, by omega⟩
      have hm1 : 1 ≤ m := by omega
      obtain ⟨p, rfl⟩ : ∃ p, m = p + 1 := ⟨m - 1, by omega⟩
      by_cases hb : X < x0 + dx
      · have hq : (X - x0) / dx < 1 := by
          rw [div_lt_one hdx]; linarith
        have hf : ⌊(X - x0) / dx⌋ < 1 := Int.floor_lt.mpr (by
          push_cast
          exact hq)
        have h0 : Int.toNat ⌊(X - x0) / dx⌋ = 0 := by omega
        rw [h0, show axisOf x0 dx (p + 1 + 1 + 1) =
          x0 :: (x0 + dx) :: axisOf (x0 + dx + dx) dx (p + 1) from rfl]
        rw [show axisOf (x0 + dx + dx) dx (p + 1) =
          (x0 + dx + dx) :: axisOf (x0 + dx + dx + dx) dx p from rfl]
        simp [searchLo, hb]
      · have hxb : x0 + dx ≤ X := not_lt.mp hb
        have hq1 : (1 : ℚ) ≤ (X - x0) / dx := by
          rw [le_div_iff₀ hdx]; linarith
        have hsplit : (X - x0) / dx = (X - (x0 + dx)) / dx + 1 := by
          field_simp
          ring
        have hnn : 0 ≤ ⌊(X - (x0 + dx)) / dx⌋ :=
          Int.floor_nonneg.mpr (div_nonneg (by linarith) hdx.le)
        have hfl : ⌊(X - x0) / dx⌋ = ⌊(X - (x0 + dx)) / dx⌋ + 1 := by
          rw [hsplit, Int.floor_add_one]
        have hstep : searchLo (axisOf x0 dx (p + 1 + 1 + 1)) X
            = searchLo (axisOf (x0 + dx) dx (p + 1 + 1)) X + 1 := by
          rw [show axisOf x0 dx (p + 1 + 1 + 1) =
            x0 :: (x0 + dx) :: axisOf (x0 + dx + dx) dx (p + 1) from rfl]
          rw [show axisOf (x0 + dx + dx) dx (p + 1) =
            (x0 + dx + dx) :: axisOf (x0 + dx + dx + dx) dx p from rfl]
          rw [show axisOf (x0 + dx) dx (p + 1 + 1) =
            (x0 + dx) :: (x0 + dx + dx) :: axisOf (x0 + dx + dx + dx) dx p
            from rfl]
          simp [searchLo, hb]
        rw [hstep, ih (x0 + dx) X, hfl]
        omega

theorem validGrid_iff (xs ys : List ℚ) (F : List (List ℚ)) :
    validGrid xs ys F = true ↔
      (4 ≤ xs.length ∧ 4 ≤ ys.length ∧ List.Chain' (· < ·) xs ∧
       List.Chain' (· < ·) ys ∧ F.length = xs.length ∧
       ∀ r ∈ F, r.length = ys.length) := by
  simp only [validGrid, strictlyInc, isRect, Bool.and_eq_true,
    decide_eq_true_eq, beq_iff_eq, List.all_eq_true]
  tauto

theorem construct_ok {ds : DerivSynth} {xs ys : List ℚ}
    {F : List (List ℚ)} {sm : ℚ} {s : Surface}
    (h : construct ds xs ys F sm = Except.ok s) :
    validGrid xs ys F = true ∧ s.xAxis = xs ∧ s.yAxis = ys ∧
    (sm = 0 → s.f = F) ∧ s.regular = none := by
  unfold construct at h
  cases hv : validGrid xs ys F with
  | false => rw [hv] at h; simp at h
  | true =>
      rw [hv] at h
      simp only [if_true] at h
      injection h with h
      subst h
      refine ⟨rfl, rfl, rfl, ?_, rfl⟩
      intro h0
      simp [h0]

theorem getA_le_getA {xs : List ℚ} (hs : strictlyInc xs = true)
    {i j : Nat} (hij : i ≤ j) (hj : j < xs.length) :
    getA xs i ≤ getA xs j := by
  rcases eq_or_lt_of_le hij with rfl | hlt
  · exact le_refl _
  · exact (getA_lt_getA hs hlt hj).le

theorem inDomain_node {s : Surface}
    (hsx : strictlyInc s.xAxis = true) (hsy : strictlyInc s.yAxis = true)
    {i j : Nat} (hi : i < s.xAxis.length) (hj : j < s.yAxis.length) :
    inDomain s (getA s.xAxis i) (getA s.yAxis j) = true := by
  simp only [inDomain, Bool.and_eq_true, decide_eq_true_eq]
  exact ⟨⟨⟨getA_le_getA hsx (Nat.zero_le i) hi,
    getA_le_getA hsx (by omega) (by omega)⟩,
    getA_le_getA hsy (Nat.zero_le j) hj⟩,
    getA_le_getA hsy (by omega) (by omega)⟩

theorem cellContains_iff (s : Surface) (c : Nat × Nat) (X Y : ℚ) :
    cellContains s c X Y = true ↔
      (getA s.xAxis c.1 ≤ X ∧ X ≤ getA s.xAxis (c.1 + 1) ∧
       getA s.yAxis c.2 ≤ Y ∧ Y ≤ getA s.yAxis (c.2 + 1)) := by
  simp only [cellContains, Bool.and_eq_true, decide_eq_true_eq]
  tauto

theorem access_const (s : Surface) (req : List Nat) (X Y : ℚ)
    (h : Option HintData) (st : Stats) (v : ℚ)
    (hdom : inDomain s X Y = true) (hWF : HintWF s h)
    (h2 : ∀ c : Nat × Nat, c.1 + 1 < s.xAxis.length →
      c.2 + 1 < s.yAxis.length → cellContains s c X Y = true →
      evalInCell s c req X Y = v)
    (h3 : evalInCell s (locateCell s X Y) req X Y = v) :
    (access s req X Y h st).1 = Except.ok v := by
  unfold access
  rw [if_pos hdom]
  cases h with
  | none => exact congrArg Except.ok h3
  | some hd =>
      dsimp only
      obtain ⟨hb1, hb2, hcc, hres⟩ := hWF hd rfl
      by_cases ht : hd.lastPoint = (X, Y) ∧ hd.lastRequest = req
      · rw [if_pos ht]
        show Except.ok hd.lastResult = Except.ok v
        obtain ⟨hp, hr⟩ := ht
        rw [hp] at hcc hres
        rw [hr] at hres
        rw [hres]
        exact congrArg Except.ok (h2 hd.cell hb1 hb2 hcc)
      · rw [if_neg ht]
        by_cases hcell : cellContains s hd.cell X Y = true
        · rw [if_pos hcell]
          exact congrArg Except.ok (h2 hd.cell hb1 hb2 hcell)
        · rw [if_neg hcell]
          by_cases ha : isAdjacent hd.cell (locateCell s X Y) = true
          · rw [if_pos ha]
            exact congrArg Except.ok h3
          · rw [if_neg ha]
            exact congrArg Except.ok h3

theorem inDomain_iff (s : Surface) (X Y : ℚ) :
    inDomain s X Y = true ↔
      (getA s.xAxis 0 ≤ X ∧ X ≤ getA s.xAxis (s.xAxis.length - 1) ∧
       getA s.yAxis 0 ≤ Y ∧ Y ≤ getA s.yAxis (s.yAxis.length - 1)) := by
  simp only [inDomain, Bool.and_eq_true, decide_eq_true_eq]
  tauto

theorem locateCell_irregular (s : Surface) (hreg : s.regular = none)
    (h2x : 2 ≤ s.xAxis.length) (h2y : 2 ≤ s.yAxis.length)
    (X Y : ℚ) (hdom : inDomain s X Y = true) :
    (locateCell s X Y).1 + 1 < s.xAxis.length ∧
    (locateCell s X Y).2 + 1 < s.yAxis.length ∧
    cellContains s (locateCell s X Y) X Y = true := by
  obtain ⟨hd1, hd2, hd3, hd4⟩ := (inDomain_iff s X Y).mp hdom
  have hbx := searchLo_bracket s.xAxis X h2x hd1 hd2
  have hby := searchLo_bracket s.yAxis Y h2y hd3 hd4
  have hloc : locateCell s X Y = (searchLo s.xAxis X, searchLo s.yAxis Y) := by
    simp [locateCell, hreg]
  rw [hloc]
  exact ⟨hbx.2.2, hby.2.2,
    (cellContains_iff s _ X Y).mpr ⟨hbx.1, hbx.2.1, hby.1, hby.2.1⟩⟩

theorem access_locate_congr (s sp : Surface)
    (hax : sp.xAxis = s.xAxis) (hay : sp.yAxis = s.yAxis)
    (hf : sp.f = s.f) (hfx : sp.fx = s.fx) (hfy : sp.fy = s.fy)
    (hfxy : sp.fxy = s.fxy) (X Y : ℚ)
    (hloc : locateCell sp X Y = locateCell s X Y)
    (req : List Nat) (h : Option HintData) (st : Stats) :
    access sp req X Y h st = access s req X Y h st := by
  have hpe : ∀ i j cx cy, patchEvalD sp i j cx cy X Y =
      patchEvalD s i j cx cy X Y := by
    intro i j cx cy
    simp only [patchEvalD, hax, hay, hf, hfx, hfy, hfxy]
  have hec : ∀ (c : Nat × Nat) (r2 : List Nat),
      evalInCell sp c r2 X Y = evalInCell s c r2 X Y := by
    intro c r2
    simp only [evalInCell, hpe]
  have hid : inDomain sp X Y = inDomain s X Y := by
    simp only [inDomain, hax, hay]
  have hcc : ∀ c : Nat × Nat, cellContains sp c X Y =
      cellContains s c X Y := by
    intro c
    simp only [cellContains, hax, hay]
  unfold access
  rw [hid, hloc]
  cases h with
  | none => simp only [hec]
  | some hd => simp only [hec, hcc]

theorem stats_le_access (s : Surface) (req : List Nat) (X Y : ℚ)
    (h : Option HintData) (st : Stats) :
    statsLE st (access s req X Y h st).2.2 := by
  unfold statsLE access
  by_cases hdom : inDomain s X Y = true
  · rw [if_pos hdom]
    cases h with
    | none => dsimp only; omega
    | some hd =>
        dsimp only
        by_cases ht : hd.lastPoint = (X, Y) ∧ hd.lastRequest = req
        · rw [if_pos ht]; dsimp only; omega
        · rw [if_neg ht]
          by_cases hcell : cellContains s hd.cell X Y = true
          · rw [if_pos hcell]; dsimp only; omega
          · rw [if_neg hcell]
            by_cases ha : isAdjacent hd.cell (locateCell s X Y) = true
            · rw [if_pos ha]; dsimp only; omega
            · rw [if_neg ha]; dsimp only; omega
  · rw [if_neg hdom]
    dsimp only
    omega

/-- C1: for a surface constructed with smoothness 0 from axes `xs`, `ys`
and value matrix `F`, `calcValue` evaluated exactly at any construction
grid node `(xs[i], ys[j])` returns `f[i][j]` exactly (hence within any
floating-point tolerance), for any well-formed hint and any statistics
state. -/
theorem claim1_grid_node_exact (ds : DerivSynth) (xs ys : List ℚ)
    (F : List (List ℚ)) (s : Surface) (i j : Nat)
    (h : Option HintData) (st : Stats)
    (hcons : construct ds xs ys F 0 = Except.ok s)
    (hi : i < xs.length) (hj : j < ys.length) (hWF : HintWF s h) :
    (calcValue s (getA xs i) (getA ys j) h st).1 =
      Except.ok (getM F i j) := by
  obtain ⟨hv, hx, hy, hf, hreg⟩ := construct_ok hcons
  have hf0 : s.f = F := hf rfl
  obtain ⟨hx4, hy4, hcx, hcy, hlen, hrect⟩ := (validGrid_iff xs ys F).mp hv
  have hsx : strictlyInc s.xAxis = true := by
    rw [hx, strictlyInc, decide_eq_true_eq]; exact hcx
  have hsy : strictlyInc s.yAxis = true := by
    rw [hy, strictlyInc, decide_eq_true_eq]; exact hcy
  rw [← hx, ← hy, ← hf0]
  rw [← hx] at hi
  rw [← hy] at hj
  have hdom := inDomain_node hsx hsy hi hj
  unfold calcValue
  refine access_const s [] _ _ h st _ hdom hWF ?_ ?_
  · intro c hc1 hc2 hcc
    obtain ⟨b1, b2, b3, b4⟩ := (cellContains_iff s c _ _).mp hcc
    exact patchEvalD_corner hsx hsy hi hj hc1 hc2 b1 b2 b3 b4
  · obtain ⟨l1, l2, lcc⟩ := locateCell_irregular s hreg
      (by rw [hx]; omega) (by rw [hy]; omega) _ _ hdom
    obtain ⟨b1, b2, b3, b4⟩ := (cellContains_iff s _ _ _).mp lcc
    exact patchEvalD_corner hsx hsy hi hj l1 l2 b1 b2 b3 b4

/-- Witness for C1: the 4×4 grid `f[i][j] = i² + j²` at node (1,2),
with a fresh hint. -/
theorem claim1_grid_node_exact_witness :
    (calcValue sW (getA xs4 1) (getA xs4 2) emptyHint st0).1 =
      Except.ok (getM F4 1 2) :=
  claim1_grid_node_exact zeroSynth xs4 xs4 F4 sW 1 2 emptyHint st0
    (by norm_num [construct, validGrid, strictlyInc, isRect, zeroSynth,
      xs4, F4, sW])
    (by decide) (by decide) (fun hd hh => nomatch hh)

/-- C2: for every in-domain point and every derivative-component list
(entries 0 or 1) whose order in a single variable is at least 4, or which
mixes X and Y derivatives beyond the mixed order (1,1), `calcDerivative`
returns `Except.ok 0` — a defined value, not an error. -/
theorem claim2_high_order_derivative_zero (s : Surface) (dc : List Nat)
    (X Y : ℚ) (h : Option HintData) (st : Stats)
    (hdom : inDomain s X Y = true) (hWF : HintWF s h)
    (_hent : ∀ k ∈ dc, k = 0 ∨ k = 1)
    (hord : 4 ≤ dc.count 0 ∨ 4 ≤ dc.count 1 ∨
      (1 ≤ dc.count 0 ∧ 1 ≤ dc.count 1 ∧
        ¬(dc.count 0 = 1 ∧ dc.count 1 = 1))) :
    (calcDerivative s dc X Y h st).1 = Except.ok 0 := by
  unfold calcDerivative
  refine access_const s dc X Y h st 0 hdom hWF ?_ ?_
  · intro c _ _ _
    exact patchEvalD_zero s c.1 c.2 _ _ X Y (by omega)
  · exact patchEvalD_zero s _ _ _ _ X Y (by omega)

/-- Witness for C2: the fourth X-derivative request `{0,0,0,0}` at the
in-domain point (1/2, 1/2) of the concrete surface. -/
theorem claim2_high_order_derivative_zero_witness :
    (calcDerivative sW [0, 0, 0, 0] (1/2) (1/2) emptyHint st0).1 =
      Except.ok 0 :=
  claim2_high_order_derivative_zero sW [0, 0, 0, 0] (1/2) (1/2)
    emptyHint st0 (by norm_num [inDomain, sW, xs4, getA])
    (fun hd hh => nomatch hh) (by decide) (by decide)

/-- C3: a query with X or Y outside the closed interval of the axis
samples makes `calcValue` and `calcDerivative` return `OutOfRangeError`,
with the hint (and statistics) passed back unmodified. -/
theorem claim3_out_of_range (s : Surface) (X Y : ℚ)
    (h : Option HintData) (st : Stats)
    (hout : X < getA s.xAxis 0 ∨ getA s.xAxis (s.xAxis.length - 1) < X ∨
      Y < getA s.yAxis 0 ∨ getA s.yAxis (s.yAxis.length - 1) < Y) :
    calcValue s X Y h st = (Except.error SimErr.OutOfRangeError, h, st) ∧
    ∀ dc : List Nat, calcDerivative s dc X Y h st =
      (Except.error SimErr.OutOfRangeError, h, st) := by
  have hdom : ¬ inDomain s X Y = true := by
    rw [inDomain_iff]
    rintro ⟨h1, h2, h3, h4⟩
    rcases hout with h5 | h5 | h5 | h5 <;> linarith
  constructor
  · unfold calcValue access
    rw [if_neg hdom]
  · intro dc
    unfold calcDerivative access
    rw [if_neg hdom]

/-- Witness for C3: the point (5, 1) lies beyond the last X sample of the
concrete surface. -/
theorem claim3_out_of_range_witness :
    calcValue sW 5 1 emptyHint st0 =
      (Except.error SimErr.OutOfRangeError, emptyHint, st0) :=
  (claim3_out_of_range sW 5 1 emptyHint st0
    (Or.inr (Or.inl (by norm_num [sW, xs4, getA])))).1

/-- C4: the grid-building constructors report `InvalidGridError` exactly
when the input is invalid — axes not strictly increasing, a dimension
below 4, a matrix-shape mismatch, or non-positive regular spacing — and
evaluation calls never report that error. -/
theorem claim4_invalid_grid_exactly :
    (∀ (ds : DerivSynth) (xs ys : List ℚ) (F : List (List ℚ)) (sm : ℚ),
      construct ds xs ys F sm = Except.error SimErr.InvalidGridError ↔
        ¬(4 ≤ xs.length ∧ 4 ≤ ys.length ∧ List.Chain' (· < ·) xs ∧
          List.Chain' (· < ·) ys ∧ F.length = xs.length ∧
          ∀ r ∈ F, r.length = ys.length)) ∧
    (∀ (ds : DerivSynth) (x0 y0 dx dy : ℚ) (F : List (List ℚ)) (sm : ℚ),
      constructRegular ds x0 y0 dx dy F sm =
          Except.error SimErr.InvalidGridError ↔
        ¬(0 < dx ∧ 0 < dy ∧ 4 ≤ F.length ∧ 4 ≤ (F.headD []).length ∧
          ∀ r ∈ F, r.length = (F.headD []).length)) ∧
    (∀ (s : Surface) (req : List Nat) (X Y : ℚ) (h : Option HintData)
      (st : Stats),
      (access s req X Y h st).1 ≠ Except.error SimErr.InvalidGridError) := by
  refine ⟨?_, ?_, ?_⟩
  · intro ds xs ys F sm
    by_cases hv : validGrid xs ys F = true
    · unfold construct
      rw [if_pos hv]
      exact iff_of_false (by simp)
        (not_not_intro ((validGrid_iff xs ys F).mp hv))
    · unfold construct
      rw [if_neg hv]
      have hnp := fun hp => hv ((validGrid_iff xs ys F).mpr hp)
      simpa using hnp
  · intro ds x0 y0 dx dy F sm
    by_cases hpos : 0 < dx ∧ 0 < dy
    · obtain ⟨hdx, hdy⟩ := hpos
      unfold constructRegular
      rw [if_pos ⟨hdx, hdy⟩]
      have hax : validGrid (axisOf x0 dx F.length)
          (axisOf y0 dy (F.headD []).length) F = true ↔
          (4 ≤ F.length ∧ 4 ≤ (F.headD []).length ∧
           ∀ r ∈ F, r.length = (F.headD []).length) := by
        rw [validGrid_iff]
        constructor
        · rintro ⟨a, b, -, -, -, fr⟩
          exact ⟨by simpa [axisOf_length] using a,
            by simpa [axisOf_length] using b,
            by simpa [axisOf_length] using fr⟩
        · rintro ⟨a, b, fr⟩
          refine ⟨by simpa [axisOf_length] using a,
            by simpa [axisOf_length] using b, ?_, ?_,
            by simp [axisOf_length], by simpa [axisOf_length] using fr⟩
          · have := strictlyInc_axisOf hdx F.length x0
            rwa [strictlyInc, decide_eq_true_eq] at this
          · have := strictlyInc_axisOf hdy (F.headD []).length y0
            rwa [strictlyInc, decide_eq_true_eq] at this
      by_cases hv : validGrid (axisOf x0 dx F.length)
          (axisOf y0 dy (F.headD []).length) F = true
      · unfold construct
        rw [if_pos hv]
        dsimp only
        obtain ⟨a, b, fr⟩ := hax.mp hv
        exact iff_of_false (by simp) (not_not_intro ⟨hdx, hdy, a, b, fr⟩)
      · unfold construct
        rw [if_neg hv]
        dsimp only
        exact iff_of_true rfl
          (fun hh => hv (hax.mpr ⟨hh.2.2.1, hh.2.2.2.1, hh.2.2.2.2⟩))
    · unfold constructRegular
      rw [if_neg hpos]
      exact iff_of_true rfl (fun hh => hpos ⟨hh.1, hh.2.1⟩)
  · intro s req X Y h st
    unfold access
    by_cases hdom : inDomain s X Y = true
    · rw [if_pos hdom]
      cases h with
      | none => dsimp only; simp
      | some hd =>
          dsimp only
          by_cases ht : hd.lastPoint = (X, Y) ∧ hd.lastRequest = req
          · rw [if_pos ht]; simp
          · rw [if_neg ht]
            by_cases hcell : cellContains s hd.cell X Y = true
            · rw [if_pos hcell]; simp
            · rw [if_neg hcell]
              by_cases ha : isAdjacent hd.cell (locateCell s X Y) = true
              · rw [if_pos ha]; simp
              · rw [if_neg ha]; simp
    · rw [if_neg hdom]
      simp

/-- C5: a surface built by the regular-grid constructor and one built by
the explicit-axis constructor on the expanded axis sequences (same sample
locations, same values, same smoothness) return identical `calcValue`
results at every in-domain query point. -/
theorem claim5_regular_equals_irregular (ds : DerivSynth)
    (x0 y0 dx dy : ℚ) (F : List (List ℚ)) (sm : ℚ) (sR sI : Surface)
    (X Y : ℚ) (h : Option HintData) (st : Stats)
    (hR : constructRegular ds x0 y0 dx dy F sm = Except.ok sR)
    (hI : construct ds (axisOf x0 dx F.length)
      (axisOf y0 dy (F.headD []).length) F sm = Except.ok sI)
    (_hdom : inDomain sI X Y = true) :
    (calcValue sR X Y h st).1 = (calcValue sI X Y h st).1 := by
  unfold constructRegular at hR
  by_cases hpos : 0 < dx ∧ 0 < dy
  case neg => rw [if_neg hpos] at hR; simp at hR
  obtain ⟨hdx, hdy⟩ := hpos
  rw [if_pos ⟨hdx, hdy⟩, hI] at hR
  dsimp only at hR
  injection hR with hR
  obtain ⟨hv, hxI, hyI, -, hregI⟩ := construct_ok hI
  obtain ⟨hx4, hy4, -, -, -, -⟩ := (validGrid_iff _ _ _).mp hv
  rw [axisOf_length] at hx4 hy4
  subst hR
  unfold calcValue
  have hloc : locateCell { sI with regular := some (x0, dx, y0, dy) } X Y
      = locateCell sI X Y := by
    unfold locateCell
    rw [show ({ sI with regular := some (x0, dx, y0, dy) } :
      Surface).regular = some (x0, dx, y0, dy) from rfl, hregI]
    dsimp only
    rw [show ({ sI with regular := some (x0, dx, y0, dy) } :
      Surface).xAxis = sI.xAxis from rfl]
    rw [show ({ sI with regular := some (x0, dx, y0, dy) } :
      Surface).yAxis = sI.yAxis from rfl]
    rw [hxI, hyI, axisOf_length, axisOf_length,
      searchLo_axisOf hdx (by omega) x0 X,
      searchLo_axisOf hdy (by omega) y0 Y]
  rw [access_locate_congr sI { sI with regular := some (x0, dx, y0, dy) }
    rfl rfl rfl rfl rfl rfl X Y hloc [] h st]

/-- Witness for C5: origin (0,0), spacing (1,1) on the 4×4 grid, queried
at the interior point (3/2, 3/2). -/
theorem claim5_regular_equals_irregular_witness :
    (calcValue sWreg (3/2) (3/2) emptyHint st0).1 =
      (calcValue sWirr (3/2) (3/2) emptyHint st0).1 :=
  claim5_regular_equals_irregular zeroSynth 0 0 1 1 F4 0 sWreg sWirr
    (3/2) (3/2) emptyHint st0
    (by norm_num [constructRegular, construct, validGrid, strictlyInc,
      isRect, zeroSynth, F4, sWreg, axisOf])
    (by norm_num [construct, validGrid, strictlyInc, isRect, zeroSynth,
      F4, sWirr, axisOf])
    (by norm_num [inDomain, sWirr, axisOf, getA])

/-- C6: every in-domain call of the evaluation core increments the
total-accesses counter by exactly one and takes exactly one cache-tier
outcome (same point, same patch, nearby patch, or cold search),
incrementing that tier's counter (if any) exactly once; all four counters
are non-decreasing across any call, and `resetStatistics` returns them
to zero.  (`calcValue` and `calcDerivative` both forward to `access`,
with request `[]` resp. the derivative components.) -/
theorem claim6_statistics_tiers (s : Surface) (req : List Nat) (X Y : ℚ)
    (h : Option HintData) (st : Stats)
    (hdom : inDomain s X Y = true) :
    ((access s req X Y h st).2.2.total = st.total + 1 ∧
     (((access s req X Y h st).2.2.samePoint = st.samePoint + 1 ∧
       (access s req X Y h st).2.2.samePatch = st.samePatch ∧
       (access s req X Y h st).2.2.nearby = st.nearby) ∨
      ((access s req X Y h st).2.2.samePoint = st.samePoint ∧
       (access s req X Y h st).2.2.samePatch = st.samePatch + 1 ∧
       (access s req X Y h st).2.2.nearby = st.nearby) ∨
      ((access s req X Y h st).2.2.samePoint = st.samePoint ∧
       (access s req X Y h st).2.2.samePatch = st.samePatch ∧
       (access s req X Y h st).2.2.nearby = st.nearby + 1) ∨
      ((access s req X Y h st).2.2.samePoint = st.samePoint ∧
       (access s req X Y h st).2.2.samePatch = st.samePatch ∧
       (access s req X Y h st).2.2.nearby = st.nearby))) ∧
    statsLE st (access s req X Y h st).2.2 ∧
    (∀ (X2 Y2 : ℚ) (h2 : Option HintData) (st2 : Stats),
      statsLE st2 (access s req X2 Y2 h2 st2).2.2) ∧
    resetStatistics st = ⟨0, 0, 0, 0⟩ := by
  refine ⟨?_, stats_le_access s req X Y h st,
    fun X2 Y2 h2 st2 => stats_le_access s req X2 Y2 h2 st2, rfl⟩
  unfold access
  rw [if_pos hdom]
  cases h with
  | none => dsimp only; omega
  | some hd =>
      dsimp only
      by_cases ht : hd.lastPoint = (X, Y) ∧ hd.lastRequest = req
      · rw [if_pos ht]; dsimp only; omega
      · rw [if_neg ht]
        by_cases hcell : cellContains s hd.cell X Y = true
        · rw [if_pos hcell]; dsimp only; omega
        · rw [if_neg hcell]
          by_cases ha : isAdjacent hd.cell (locateCell s X Y) = true
          · rw [if_pos ha]; dsimp only; omega
          · rw [if_neg ha]; dsimp only; omega

/-- Witness for C6: a fresh-hint in-domain call on the concrete surface. -/
theorem claim6_statistics_tiers_witness :
    ((access sW [] 1 1 emptyHint st0).2.2.total = st0.total + 1 ∧
     (((access sW [] 1 1 emptyHint st0).2.2.samePoint = st0.samePoint + 1 ∧
       (access sW [] 1 1 emptyHint st0).2.2.samePatch = st0.samePatch ∧
       (access sW [] 1 1 emptyHint st0).2.2.nearby = st0.nearby) ∨
      ((access sW [] 1 1 emptyHint st0).2.2.samePoint = st0.samePoint ∧
       (access sW [] 1 1 emptyHint st0).2.2.samePatch = st0.samePatch + 1 ∧
       (access sW [] 1 1 emptyHint st0).2.2.nearby = st0.nearby) ∨
      ((access sW [] 1 1 emptyHint st0).2.2.samePoint = st0.samePoint ∧
       (access sW [] 1 1 emptyHint st0).2.2.samePatch = st0.samePatch ∧
       (access sW [] 1 1 emptyHint st0).2.2.nearby = st0.nearby + 1) ∨
      ((access sW [] 1 1 emptyHint st0).2.2.samePoint = st0.samePoint ∧
       (access sW [] 1 1 emptyHint st0).2.2.samePatch = st0.samePatch ∧
       (access sW [] 1 1 emptyHint st0).2.2.nearby = st0.nearby))) ∧
    statsLE st0 (access sW [] 1 1 emptyHint st0).2.2 ∧
    (∀ (X2 Y2 : ℚ) (h2 : Option HintData) (st2 : Stats),
      statsLE st2 (access sW [] X2 Y2 h2 st2).2.2) ∧
    resetStatistics st0 = ⟨0, 0, 0, 0⟩ :=
  claim6_statistics_tiers sW [] 1 1 emptyHint st0
    (by norm_num [inDomain, sW, xs4, getA])

/-- C7: for a constructed surface, `isSurfaceDefined` returns true
exactly when X and Y lie in the closed intervals between their axis
extrema (first and last sample of each strictly increasing axis): true at
and strictly inside the extrema, false immediately outside.  In this
model `isSurfaceDefined` is a pure function of the surface and the point,
so it can touch neither a hint nor the statistics. -/
theorem claim7_is_surface_defined (ds : DerivSynth) (xs ys : List ℚ)
    (F : List (List ℚ)) (sm : ℚ) (s : Surface) (X Y : ℚ)
    (hcons : construct ds xs ys F sm = Except.ok s) :
    isSurfaceDefined s X Y = true ↔
      (getA xs 0 ≤ X ∧ X ≤ getA xs (xs.length - 1) ∧
       getA ys 0 ≤ Y ∧ Y ≤ getA ys (ys.length - 1)) := by
  obtain ⟨-, hx, hy, -, -⟩ := construct_ok hcons
  rw [isSurfaceDefined, inDomain_iff, hx, hy]

/-- Witness for C7: the domain test at the interior point (1, 2) of the
concrete surface. -/
theorem claim7_is_surface_defined_witness :
    isSurfaceDefined sW 1 2 = true ↔
      (getA xs4 0 ≤ 1 ∧ (1 : ℚ) ≤ getA xs4 (xs4.length - 1) ∧
       getA xs4 0 ≤ 2 ∧ (2 : ℚ) ≤ getA xs4 (xs4.length - 1)) :=
  claim7_is_surface_defined zeroSynth xs4 xs4 F4 0 sW 1 2
    (by norm_num [construct, validGrid, strictlyInc, isRect, zeroSynth,
      xs4, F4, sW])

/-- C8: the `PatchHint` state machine — created empty; populated by every
successful evaluation call; never emptied by an evaluation call (a
failing call leaves it as it was); returned to empty only by an explicit
`clear`; and copying an empty hint yields an empty hint. -/
theorem claim8_patch_hint_state_machine :
    hintIsEmpty emptyHint = true ∧
    (∀ (s : Surface) (req : List Nat) (X Y : ℚ) (h : Option HintData)
      (st : Stats) (r : ℚ) (h2 : Option HintData) (st2 : Stats),
      access s req X Y h st = (Except.ok r, h2, st2) →
      hintIsEmpty h2 = false) ∧
    (∀ (s : Surface) (req : List Nat) (X Y : ℚ) (h : Option HintData)
      (st : Stats), hintIsEmpty h = false →
      hintIsEmpty (access s req X Y h st).2.1 = false) ∧
    (∀ h : Option HintData, hintIsEmpty (clearHint h) = true) ∧
    (∀ h : Option HintData, hintIsEmpty h = true →
      hintIsEmpty (copyHint h) = true) := by
  refine ⟨rfl, ?_, ?_, fun h => rfl, fun h hh => hh⟩
  · intro s req X Y h st r h2 st2 heq
    unfold access at heq
    by_cases hdom : inDomain s X Y = true
    · rw [if_pos hdom] at heq
      cases h with
      | none =>
          dsimp only at heq
          have hh := congrArg (fun t => t.2.1) heq
          dsimp only at hh
          rw [← hh]
          rfl
      | some hd =>
          dsimp only at heq
          by_cases ht : hd.lastPoint = (X, Y) ∧ hd.lastRequest = req
          · rw [if_pos ht] at heq
            have hh := congrArg (fun t => t.2.1) heq
            dsimp only at hh
            rw [← hh]
            rfl
          · rw [if_neg ht] at heq
            by_cases hcell : cellContains s hd.cell X Y = true
            · rw [if_pos hcell] at heq
              have hh := congrArg (fun t => t.2.1) heq
              dsimp only at hh
              rw [← hh]
              rfl
            · rw [if_neg hcell] at heq
              by_cases ha : isAdjacent hd.cell (locateCell s X Y) = true
              · rw [if_pos ha] at heq
                have hh := congrArg (fun t => t.2.1) heq
                dsimp only at hh
                rw [← hh]
                rfl
              · rw [if_neg ha] at heq
                have hh := congrArg (fun t => t.2.1) heq
                dsimp only at hh
                rw [← hh]
                rfl
    · rw [if_neg hdom] at heq
      have hh := congrArg (fun t => t.1) heq
      simp at hh
  · intro s req X Y h st hne
    cases h with
    | none => simp [hintIsEmpty] at hne
    | some hd =>
        unfold access
        by_cases hdom : inDomain s X Y = true
        · rw [if_pos hdom]
          dsimp only
          by_cases ht : hd.lastPoint = (X, Y) ∧ hd.lastRequest = req
          · rw [if_pos ht]; rfl
          · rw [if_neg ht]
            by_cases hcell : cellContains s hd.cell X Y = true
            · rw [if_pos hcell]; rfl
            · rw [if_neg hcell]
              by_cases ha : isAdjacent hd.cell (locateCell s X Y) = true
              · rw [if_pos ha]; rfl
              · rw [if_neg ha]; rfl
        · rw [if_neg hdom]; rfl

/-- C9: `BicubicFunction::calcValue` and `::calcDerivative` report an
error for any argument vector that does not have exactly 2 elements
before touching the surface (the hint and statistics come back
unchanged), and `getArgumentSize` always returns 2. -/
theorem claim9_argument_size_check (fn : BicubicFunction) (st : Stats)
    (XY : List ℚ) (dc : List Nat) (hlen : XY.length ≠ 2) :
    fn.calcValue st XY = (Except.error SimErr.SizeError, fn.hint, st) ∧
    fn.calcDerivative st dc XY =
      (Except.error SimErr.SizeError, fn.hint, st) ∧
    fn.getArgumentSize = 2 := by
  refine ⟨?_, ?_, rfl⟩
  · unfold BicubicFunction.calcValue
    rw [if_neg hlen]
  · unfold BicubicFunction.calcDerivative
    rw [if_neg hlen]

/-- Witness for C9: a 1-element argument vector. -/
theorem claim9_argument_size_check_witness :
    fnW.calcValue st0 [1] =
      (Except.error SimErr.SizeError, fnW.hint, st0) ∧
    fnW.calcDerivative st0 [0] [1] =
      (Except.error SimErr.SizeError, fnW.hint, st0) ∧
    fnW.getArgumentSize = 2 :=
  claim9_argument_size_check fnW st0 [1] [0] (by decide)

/-- C10: in a single-threaded execution every id
`ContactImpl::createNewContactId` issues from a reachable counter state
lies in `[1, 999999999]` (never 0), and after issuing `MaxContactId` the
counter resets so the next call returns 1. -/
theorem claim10_contact_id_range (n : Nat)
    (hreach : ReachableCounter n) :
    1 ≤ (createNewContactId n).1 ∧
    (createNewContactId n).1 ≤ MaxContactId ∧
    (createNewContactId n).1 ≠ 0 ∧
    ((createNewContactId n).1 = MaxContactId →
      (createNewContactId (createNewContactId n).2).1 = 1) := by
  have hinv : 1 ≤ n ∧ n ≤ MaxContactId := by
    induction hreach with
    | init => exact ⟨le_refl 1, by norm_num [MaxContactId]⟩
    | step hr ih =>
        unfold createNewContactId
        dsimp only
        split_ifs with hmax
        · exact ⟨le_refl 1, by norm_num [MaxContactId]⟩
        · simp only [MaxContactId] at *
          omega
  have h1 : (createNewContactId n).1 = n := rfl
  rw [h1]
  refine ⟨hinv.1, hinv.2, by omega, ?_⟩
  intro hmax
  have h2 : (createNewContactId n).2 = 1 := by
    simp [createNewContactId, hmax]
  rw [h2]
  rfl

/-- Witness for C10: the initial counter state 1. -/
theorem claim10_contact_id_range_witness :
    1 ≤ (createNewContactId 1).1 ∧
    (createNewContactId 1).1 ≤ MaxContactId ∧
    (createNewContactId 1).1 ≠ 0 ∧
    ((createNewContactId 1).1 = MaxContactId →
      (createNewContactId (createNewContactId 1).2).1 = 1) :=
  claim10_contact_id_range 1 ReachableCounter.init

end Simbody
